import Mathlib

/-!
Verification development for the iaito plugin runtime and the pdc decompiler
capability.  The definitions below are a shallow embedding of
`src/core/IaitoCommon.h` (the `R2pdcCmdDecompiler` part, i.e. the async
backend-task translation into `RCodeMeta`) and of the `PluginManager`
translation unit (plugin discovery, loading and teardown).
-/

/-! ## JSON model (QJsonValue / QJsonObject / QJsonArray semantics)

A `QJsonValue` is null, bool, number, string, array or object.  JSON numbers
are modelled as integers (all the payloads the decompiler consumes carry
whole numbers); a non-whole or absent value converts to the defaults below,
matching the Qt conversion functions used by the source. -/

inductive JsonValue where
  | jnull
  | jbool (b : Bool)
  | jnum (n : Int)
  | jstr (s : String)
  | jarr (elems : List JsonValue)
  | jobj (fields : List (String × JsonValue))
deriving Repr

/-- Model of `QJsonObject::operator[]`: value for the first matching key, an
undefined/null value when the key is absent. -/
def jlookup (fields : List (String × JsonValue)) (key : String) : JsonValue :=
  match fields.find? (fun kv => kv.1 == key) with
  | some kv => kv.2
  | none => JsonValue.jnull

/-- Model of `QJsonValue::toString`: the string for string values, a null (empty)
string otherwise. -/
def toStringQ : JsonValue → String
  | JsonValue.jstr s => s
  | _ => ""

/-- Model of `QJsonValue::isString`. -/
def isStringQ : JsonValue → Bool
  | JsonValue.jstr _ => true
  | _ => false

/-- Model of `QJsonValue::toArray`: the elements for array values, empty otherwise. -/
def toArrayQ : JsonValue → List JsonValue
  | JsonValue.jarr xs => xs
  | _ => []

/-- Model of `QJsonValue::toObject`: the fields for object values, empty otherwise. -/
def toObjectQ : JsonValue → List (String × JsonValue)
  | JsonValue.jobj fs => fs
  | _ => []

/-- Model of `QJsonValue::toInt`: the value when it is a whole number representable in
a signed 32-bit int, and the default 0 for everything else (non-numbers and
out-of-range numbers). -/
def toIntQ : JsonValue → Int
  | JsonValue.jnum n => if -(2 ^ 31) ≤ n ∧ n < 2 ^ 31 then n else 0
  | _ => 0

/-- Model of `QJsonValue::toVariant().toULongLong(&ok)`: an unsigned 64-bit value plus
the conversion-success flag.  Numbers in `[0, 2^64)` and numeric strings
convert successfully; everything else yields `(0, false)`. -/
def toULongLongQ : JsonValue → Nat × Bool
  | JsonValue.jnum n => if 0 ≤ n ∧ n < 2 ^ 64 then (n.toNat, true) else (0, false)
  | JsonValue.jstr s =>
    match s.toNat? with
    | some v => if v < 2 ^ 64 then (v, true) else (0, false)
    | none => (0, false)
  | JsonValue.jbool b => ((if b then 1 else 0), true)
  | _ => (0, false)

/-! ## RCodeMeta model (the DecompiledCode result) -/

/-- One `RCodeMetaItem` as filled in by `decompileAt`: byte range
`[start, end)` plus the referenced address (`offset.offset`); the source sets
`type` to `R_CODEMETA_TYPE_OFFSET` on every item it creates, so the kind is
left implicit here. -/
structure RCodeMetaItem where
  start : Int
  end_ : Int
  offset : Nat
deriving Repr, DecidableEq

/-- Model of `RCodeMeta`: the decompiled source text plus its annotations list. -/
structure RCodeMeta where
  code : String
  annotations : List RCodeMetaItem
deriving Repr, DecidableEq

/-- Model of `Decompiler::makeWarning` (shown in the source as
`r_codemeta_new(warningMessage)`): a result carrying the warning text and no
annotations.  `r_codemeta_new` always yields a fresh non-null object. -/
def makeWarning (warningMessage : String) : RCodeMeta :=
  { code := warningMessage, annotations := [] }

/-- The body of the `R2Task::finished` lambda of
`R2pdcCmdDecompiler::decompileAt`, after the empty-object guard: build an
`RCodeMeta` from the parsed `pdcj` payload.  Faithful to the source order:
read `code`, iterate `annotations` keeping non-empty objects whose `type`
string is `"offset"` (start/end via `toInt`, offset via
`toVariant().toULongLong(&ok)` with `ok` never consulted), then append every
string entry of `errors` to the code text followed by a newline. -/
def translatePdcPayload (json : List (String × JsonValue)) : RCodeMeta :=
  let codeString := toStringQ (jlookup json "code")
  let linesArray := toArrayQ (jlookup json "annotations")
  let items := linesArray.filterMap (fun line =>
    let lineObject := toObjectQ line
    if lineObject.isEmpty then none
    else if toStringQ (jlookup lineObject "type") ≠ "offset" then none
    else some { start := toIntQ (jlookup lineObject "start")
                end_ := toIntQ (jlookup lineObject "end")
                offset := (toULongLongQ (jlookup lineObject "offset")).1 })
  let codeString := (toArrayQ (jlookup json "errors")).foldl
    (fun acc line => if isStringQ line then acc ++ (toStringQ line ++ "\n") else acc)
    codeString
  { code := codeString, annotations := items }

/-! ## R2pdcCmdDecompiler state machine

`task` is the member `R2Task *task`; `none` models the null pointer (Idle),
`some cmd` a live pending task (Pending) for command `cmd`.  Observable
actions are modelled as an event trace: creating/starting the backend task,
deleting it, and emitting the `finished` signal with a result. -/

structure R2pdcCmdDecompilerState where
  task : Option String
deriving Repr, DecidableEq

inductive DecEv where
  | startTask (cmd : String)
  | taskDeleted
  | finished (code : RCodeMeta)
deriving Repr, DecidableEq

/-- Model of `R2pdcCmdDecompiler::decompileAt(addr)`: if a task is already pending the
call returns immediately (state unchanged, no events); otherwise a new
`R2Task("pdcj @ " + number(addr))` is created, stored and started. -/
def decompileAt (s : R2pdcCmdDecompilerState) (addr : Nat) :
    R2pdcCmdDecompilerState × List DecEv :=
  match s.task with
  | some _ => (s, [])
  | none =>
    let cmd := "pdcj @ " ++ toString addr
    ({ task := some cmd }, [DecEv.startTask cmd])

/-- The `R2Task::finished` handler connected in `decompileAt`: take the
task result as a parsed JSON object (`getResultJson().object()` yields the
empty object on parse failure or a non-object document), delete the task and
null the pointer, then either emit the parse-failure warning (empty object)
or the translated payload. -/
def onTaskFinished (s : R2pdcCmdDecompilerState)
    (json : List (String × JsonValue)) :
    R2pdcCmdDecompilerState × List DecEv :=
  match s.task with
  | none => (s, [])
  | some _ =>
    let s1 : R2pdcCmdDecompilerState := { task := none }
    if json.isEmpty then
      (s1, [DecEv.taskDeleted,
            DecEv.finished (makeWarning "Failed to parse JSON from pdc")])
    else
      (s1, [DecEv.taskDeleted, DecEv.finished (translatePdcPayload json)])

/-! ## PluginManager model

Plugin pointers are modelled as natural numbers, with `0` playing the role of
the null pointer (`QObject *` / `IaitoPlugin *` that failed to materialise).
Observable plugin-lifecycle actions are an event trace. -/

inductive PmEv where
  | warnLoadError (fileName msg : String)
  | setup (p : Nat)
  | add (p : Nat)
  | terminate (p : Nat)
  | deletePlugin (p : Nat)
deriving Repr, DecidableEq

/-- One file of `PluginManager::loadNativePlugins`: `instancePtr` is
`QPluginLoader::instance()` (0 when the module failed to load, with
`errorString` the loader diagnostic), `castPtr` is
`qobject_cast<IaitoPlugin *>(instancePtr)` (0 when the instance does not
satisfy the IaitoPlugin contract). -/
structure NativeModuleFile where
  fileName : String
  errorString : String
  instancePtr : Nat
  castPtr : Nat
deriving Repr, DecidableEq

/-- The body of the per-file loop of `PluginManager::loadNativePlugins`:
plugins appended to the active set, plus the events performed.  A failed
load warns (when the loader produced a diagnostic) and continues; a failed
capability cast silently continues; otherwise `setupPlugin()` runs and the
plugin is pushed. -/
def loadNativePluginStep (f : NativeModuleFile) : List Nat × List PmEv :=
  if f.instancePtr = 0 then
    if f.errorString ≠ "" then ([], [PmEv.warnLoadError f.fileName f.errorString])
    else ([], [])
  else if f.castPtr = 0 then ([], [])
  else ([f.castPtr], [PmEv.setup f.castPtr, PmEv.add f.castPtr])

/-- Interpreter behaviour for one entry of the python plugins directory:
whether `PyImport_ImportModule` succeeds, whether the module has a callable
`create_iaito_plugin`, whether calling it returns an object, whether
Shiboken reports the object convertible to `IaitoPlugin *`, and the pointer
the conversion writes (0 = null). -/
structure PythonModule where
  fileName : String
  importOk : Bool
  hasCreateFunc : Bool
  callOk : Bool
  convertible : Bool
  convertedPtr : Nat
deriving Repr, DecidableEq

/-- Module-name derivation in `PluginManager::loadPythonPlugins`: strip a
trailing `.py`, use other names verbatim. -/
def pythonModuleName (fileName : String) : String :=
  if fileName.endsWith ".py" then fileName.dropRight 3 else fileName

/-- Model of `PluginManager::loadPythonPlugin(moduleName)`: import the module, fetch
`create_iaito_plugin`, call it, convert the result through the Shiboken
bridge; every failure returns the null pointer, including a conversion that
succeeds but writes null. -/
def loadPythonPlugin (m : PythonModule) : Nat :=
  if !m.importOk then 0
  else if !m.hasCreateFunc then 0
  else if !m.callOk then 0
  else if !m.convertible then 0
  else m.convertedPtr

/-- The body of the per-entry loop of `PluginManager::loadPythonPlugins`:
skip the `__pycache__` cache directory, run `loadPythonPlugin` on the
derived module name; on a null result continue, otherwise `setupPlugin()`
and push. -/
def loadPythonPluginStep (m : PythonModule) : List Nat × List PmEv :=
  if m.fileName = "__pycache__" then ([], [])
  else
    let p := loadPythonPlugin m
    if p = 0 then ([], [])
    else ([p], [PmEv.setup p, PmEv.add p])

/-- A directory scan: concatenate each entry's added plugins and events in
entry order (the loops of `loadNativePlugins` / `loadPythonPlugins`). -/
def runSteps {α : Type} (step : α → List Nat × List PmEv) (xs : List α) :
    List Nat × List PmEv :=
  (xs.flatMap (fun x => (step x).1), xs.flatMap (fun x => (step x).2))

/-- Model of `PluginManager::loadNativePlugins` over a directory listing. -/
def loadNativePlugins (files : List NativeModuleFile) : List Nat × List PmEv :=
  runSteps loadNativePluginStep files

/-- Model of `PluginManager::loadPythonPlugins` over a directory listing. -/
def loadPythonPlugins (modules : List PythonModule) : List Nat × List PmEv :=
  runSteps loadPythonPluginStep modules

/-- Model of `PluginManager::PluginTerminator::operator()`: `terminate()` then
`delete` on one plugin. -/
def pluginTerminator (plugin : Nat) : List PmEv :=
  [PmEv.terminate plugin, PmEv.deletePlugin plugin]

/-- Model of `PluginManager::destroyPlugins`: `plugins.clear()` runs the
`PluginTerminator` deleter on every element and leaves the set empty. -/
def destroyPlugins (plugins : List Nat) : List Nat × List PmEv :=
  ([], plugins.flatMap pluginTerminator)

/-! ## Plugin search roots -/

/-- Split a character sequence at every occurrence of `sep` (the pieces, in
order, with separators removed); `acc` holds the current piece reversed. -/
def splitAuxQ (sep : Char) : List Char → List Char → List String
  | [], acc => [String.mk acc.reverse]
  | c :: cs, acc =>
    if c = sep then String.mk acc.reverse :: splitAuxQ sep cs []
    else splitAuxQ sep cs (c :: acc)

/-- Model of `QString::split(sep, SkipEmptyParts)`: split at every separator and drop
the empty pieces. -/
def splitSkipEmpty (sep : Char) (s : String) : List String :=
  (splitAuxQ sep s.toList []).filter (fun part => part ≠ "")

/-- Model of `PluginManager::getPluginDirectories` (regular build): the `plugins`
subdirectory of every standard app-data location, followed by the entries of
the `IAITO_EXTRA_PLUGIN_DIRS` override split on the platform list
separator. -/
def getPluginDirectories (standardLocations : List String)
    (extraPluginDirs : String) (listSeparator : Char) : List String :=
  standardLocations.map (fun location => location ++ "/plugins") ++
    splitSkipEmpty listSeparator extraPluginDirs

/-- The sequence of roots `PluginManager::loadPlugins` scans when plugins
are enabled: the user plugin directory first when it resolved, then every
plugin directory other than the user one. -/
def loadPluginsRoots (userPluginDir : String) (pluginDirs : List String) :
    List String :=
  (if userPluginDir ≠ "" then [userPluginDir] else []) ++
    pluginDirs.filter (fun dir => dir ≠ userPluginDir)

/-! ## Derived characterisations and concrete payloads used by the
theorems -/

/-- The keep-condition of the annotations loop of `decompileAt`: a non-empty
object whose `type` field is the string `"offset"`. -/
def offsetEntryKept (line : JsonValue) : Bool :=
  !(toObjectQ line).isEmpty &&
    (toStringQ (jlookup (toObjectQ line) "type") == "offset")

/-- The `RCodeMetaItem` the annotations loop builds for a kept entry. -/
def offsetEntryItem (line : JsonValue) : RCodeMetaItem :=
  { start := toIntQ (jlookup (toObjectQ line) "start")
    end_ := toIntQ (jlookup (toObjectQ line) "end")
    offset := (toULongLongQ (jlookup (toObjectQ line) "offset")).1 }

/-- The text the errors loop of `decompileAt` appends: each string entry
followed by a newline, non-strings skipped. -/
def errorsText : List JsonValue → String
  | [] => ""
  | line :: rest =>
    (if isStringQ line then toStringQ line ++ "\n" else "") ++ errorsText rest

/-- An annotations entry of type `"offset"` carrying no `start`, `end` or
`offset` field at all. -/
def c4Entry : JsonValue := JsonValue.jobj [("type", JsonValue.jstr "offset")]

/-- A payload whose only annotations entry is `c4Entry`. -/
def c4Payload : List (String × JsonValue) :=
  [("code", JsonValue.jstr ""),
   ("annotations", JsonValue.jarr [c4Entry])]

/-- The round-trip payload
`{code:"int main()\x7b\x7d", annotations:[{type:"offset", start:0, end:3,
offset:4096}], errors:[]}`. -/
def c5Payload1 : List (String × JsonValue) :=
  [("code", JsonValue.jstr "int main()\x7b\x7d"),
   ("annotations", JsonValue.jarr
      [JsonValue.jobj
        [("type", JsonValue.jstr "offset"),
         ("start", JsonValue.jnum 0),
         ("end", JsonValue.jnum 3),
         ("offset", JsonValue.jnum 4096)]]),
   ("errors", JsonValue.jarr [])]

/-- The payload `{code:"", errors:["bad syntax"]}`. -/
def c5Payload2 : List (String × JsonValue) :=
  [("code", JsonValue.jstr ""),
   ("errors", JsonValue.jarr [JsonValue.jstr "bad syntax"])]

/-- An offset-kind entry whose `start` is a non-numeric string, whose `end`
is a number outside the signed 32-bit range and whose `offset` is a
non-numeric string. -/
def c10Entry : JsonValue :=
  JsonValue.jobj
    [("type", JsonValue.jstr "offset"),
     ("start", JsonValue.jstr "x"),
     ("end", JsonValue.jnum (2 ^ 40)),
     ("offset", JsonValue.jstr "zz")]

/-- A payload whose only annotations entry is `c10Entry`. -/
def c10Payload : List (String × JsonValue) :=
  [("annotations", JsonValue.jarr [c10Entry])]

/-- The plugin a `setup` event names, if any. -/
def eventSetup : PmEv → Option Nat
  | PmEv.setup p => some p
  | _ => none

/-- The plugin an `add` event names, if any. -/
def eventAdd : PmEv → Option Nat
  | PmEv.add p => some p
  | _ => none

/-- The plugin a `terminate` event names, if any. -/
def eventTerminate : PmEv → Option Nat
  | PmEv.terminate p => some p
  | _ => none

/-- The plugin a `deletePlugin` event names, if any. -/
def eventDelete : PmEv → Option Nat
  | PmEv.deletePlugin p => some p
  | _ => none

/-- Traces made of adjacent `F p, G p` pairs interleaved with events that
are never a `G`: the shape shared by the loader traces (`setup` immediately
followed by `add`) and the teardown trace (`terminate` immediately followed
by `deletePlugin`). -/
inductive BlockTrace (F G : Nat → PmEv) : List PmEv → Prop where
  | nil : BlockTrace F G []
  | neutral (e : PmEv) (rest : List PmEv) (h : ∀ q, e ≠ G q)
      (ht : BlockTrace F G rest) : BlockTrace F G (e :: rest)
  | block (p : Nat) (rest : List PmEv) (ht : BlockTrace F G rest) :
      BlockTrace F G (F p :: G p :: rest)

/-! ## Helper lemmas -/

/-- The errors fold of `decompileAt` appends `errorsText` to its initial
accumulator. -/
theorem errorsFold_eq (xs : List JsonValue) (init : String) :
    xs.foldl
      (fun acc line => if isStringQ line then acc ++ (toStringQ line ++ "\n") else acc)
      init = init ++ errorsText xs := by
  induction xs generalizing init with
  | nil => simp [errorsText]
  | cons line rest ih =>
    by_cases h : isStringQ line
    · simp [errorsText, h, ih, String.append_assoc]
    · simp [errorsText, h, ih]

/-- The code text produced by the translation: the `code` field followed by
the newline-terminated string entries of `errors`. -/
theorem translate_code_eq (json : List (String × JsonValue)) :
    (translatePdcPayload json).code =
      toStringQ (jlookup json "code") ++
        errorsText (toArrayQ (jlookup json "errors")) := by
  unfold translatePdcPayload
  dsimp only
  exact errorsFold_eq _ _

/-- Filtering through an if-guarded `filterMap` is a filter followed by a
map. -/
theorem filterMap_guard_eq {α β : Type} (p : α → Bool) (g : α → β)
    (xs : List α) :
    xs.filterMap (fun x => if p x then some (g x) else none) =
      (xs.filter p).map g := by
  induction xs with
  | nil => rfl
  | cons x rest ih =>
    by_cases h : p x <;>
      simp [List.filterMap_cons, List.filter_cons, h, ih]

/-- The filterMap of the annotations loop is the filter/map by
`offsetEntryKept` / `offsetEntryItem`. -/
theorem filterMap_offset_eq (lines : List JsonValue) :
    (lines.filterMap (fun line =>
      let lineObject := toObjectQ line
      if lineObject.isEmpty then none
      else if toStringQ (jlookup lineObject "type") ≠ "offset" then none
      else some { start := toIntQ (jlookup lineObject "start")
                  end_ := toIntQ (jlookup lineObject "end")
                  offset := (toULongLongQ (jlookup lineObject "offset")).1 }))
      = (lines.filter offsetEntryKept).map offsetEntryItem := by
  have hcongr := List.filterMap_congr (l := lines)
    (f := fun line =>
      let lineObject := toObjectQ line
      if lineObject.isEmpty then none
      else if toStringQ (jlookup lineObject "type") ≠ "offset" then none
      else some { start := toIntQ (jlookup lineObject "start")
                  end_ := toIntQ (jlookup lineObject "end")
                  offset := (toULongLongQ (jlookup lineObject "offset")).1 })
    (g := fun line =>
      if offsetEntryKept line then some (offsetEntryItem line) else none)
    (fun line _ => by
      by_cases h1 : (toObjectQ line).isEmpty
      · simp [offsetEntryKept, h1]
      · by_cases h2 : toStringQ (jlookup (toObjectQ line) "type") = "offset"
        · simp [offsetEntryKept, offsetEntryItem, h1, h2]
        · simp [offsetEntryKept, h1, h2])
  rw [hcongr]
  exact filterMap_guard_eq offsetEntryKept offsetEntryItem lines

/-- The annotations of the translation result, characterised as a
filter-then-map. -/
theorem translate_annotations_eq (json : List (String × JsonValue)) :
    (translatePdcPayload json).annotations =
      ((toArrayQ (jlookup json "annotations")).filter offsetEntryKept).map
        offsetEntryItem := by
  unfold translatePdcPayload
  dsimp only
  exact filterMap_offset_eq _

/-! ## Claim theorems: decompiler capability -/

/-- C1: while a backend task is pending (`task` non-null), `decompileAt` is a
no-op: the state is unchanged, no new task is created or started, and no
completion event is produced. -/
theorem decompileAt_pending_noop (s : R2pdcCmdDecompilerState) (t : String)
    (addr : Nat) (h : s.task = some t) :
    decompileAt s addr = (s, []) := by
  unfold decompileAt
  rw [h]

/-- C1 witness: a concrete pending instance. -/
theorem decompileAt_pending_noop_witness :
    decompileAt { task := some "pdcj @ 7" } 7 = ({ task := some "pdcj @ 7" }, []) :=
  decompileAt_pending_noop { task := some "pdcj @ 7" } "pdcj @ 7" 7 rfl

/-- C2: on every completion of a pending task, the task is deleted and the
pointer nulled strictly before the `finished` signal is emitted (the only
events are a deletion followed by exactly one `finished`), the post-state is
Idle, and a `decompileAt` issued from the completion handler is accepted and
starts a fresh task. -/
theorem onTaskFinished_resets_before_emit (s : R2pdcCmdDecompilerState)
    (t : String) (json : List (String × JsonValue)) (addr : Nat)
    (h : s.task = some t) :
    (onTaskFinished s json).1.task = none ∧
    (∃ r, (onTaskFinished s json).2 = [DecEv.taskDeleted, DecEv.finished r]) ∧
    decompileAt (onTaskFinished s json).1 addr =
      ({ task := some ("pdcj @ " ++ toString addr) },
       [DecEv.startTask ("pdcj @ " ++ toString addr)]) := by
  unfold onTaskFinished
  rw [h]
  by_cases hj : json.isEmpty <;>
    simp [hj, decompileAt]

/-- C2 witness: a concrete completion followed by a re-invocation. -/
theorem onTaskFinished_resets_before_emit_witness :
    (onTaskFinished { task := some "pdcj @ 7" } []).1.task = none ∧
    (∃ r, (onTaskFinished { task := some "pdcj @ 7" } []).2 =
      [DecEv.taskDeleted, DecEv.finished r]) ∧
    decompileAt (onTaskFinished { task := some "pdcj @ 7" } []).1 5 =
      ({ task := some ("pdcj @ " ++ toString 5) },
       [DecEv.startTask ("pdcj @ " ++ toString 5)]) :=
  onTaskFinished_resets_before_emit { task := some "pdcj @ 7" } "pdcj @ 7" [] 5 rfl

/-- C3: when the completion payload parses to an empty JSON object (the
`object()` result both for unparseable documents and for empty ones), the
handler still emits `finished` exactly once, carrying the warning result
`makeWarning "Failed to parse JSON from pdc"` (a value, never absent). -/
theorem onTaskFinished_empty_payload_warns (s : R2pdcCmdDecompilerState)
    (t : String) (h : s.task = some t) :
    (onTaskFinished s []).2 =
      [DecEv.taskDeleted,
       DecEv.finished (makeWarning "Failed to parse JSON from pdc")] ∧
    ((onTaskFinished s []).2.countP
       (fun e => match e with
         | DecEv.finished _ => true
         | _ => false)) = 1 := by
  unfold onTaskFinished
  rw [h]
  exact ⟨rfl, rfl⟩

/-- C3 witness: a concrete pending instance receiving a garbage payload. -/
theorem onTaskFinished_empty_payload_warns_witness :
    (onTaskFinished { task := some "pdcj @ 7" } []).2 =
      [DecEv.taskDeleted,
       DecEv.finished (makeWarning "Failed to parse JSON from pdc")] ∧
    ((onTaskFinished { task := some "pdcj @ 7" } []).2.countP
       (fun e => match e with
         | DecEv.finished _ => true
         | _ => false)) = 1 :=
  onTaskFinished_empty_payload_warns { task := some "pdcj @ 7" } "pdcj @ 7" rfl

/-- C4 counterexample: the entry `{type:"offset"}` carries no `start`, `end`
or `offset` field at all, yet the translation keeps it (as an annotation
with all values defaulted to 0) instead of dropping it. -/
theorem c4_entry_without_fields_is_kept :
    (translatePdcPayload c4Payload).annotations =
      [{ start := 0, end_ := 0, offset := 0 }] ∧
    jlookup (toObjectQ c4Entry) "start" = JsonValue.jnull ∧
    jlookup (toObjectQ c4Entry) "end" = JsonValue.jnull ∧
    jlookup (toObjectQ c4Entry) "offset" = JsonValue.jnull :=
  ⟨rfl, rfl, rfl, rfl⟩

/-- C4 (amended): an annotations entry is kept iff it is a non-empty object
whose `type` field is the string `"offset"`; the presence or parseability of
`start`, `end` and `offset` plays no part in the decision (failed
conversions default to 0), and every other entry is dropped silently on a
per-entry basis. -/
theorem translatePdc_annotation_filter (json : List (String × JsonValue)) :
    (translatePdcPayload json).annotations =
      ((toArrayQ (jlookup json "annotations")).filter offsetEntryKept).map
        offsetEntryItem ∧
    offsetEntryKept c4Entry = true :=
  ⟨translate_annotations_eq json, rfl⟩

/-- C5: the translation copies the `code` field into the source text and
appends each string entry of `errors` followed by a newline (stated for all
payloads via `errorsText`); concretely, the round-trip payload yields source
text `"int main(){}"` with exactly the annotation `[0,3)` at offset 4096,
and the payload with `errors:["bad syntax"]` and empty code yields source
text ending in `"bad syntax\n"`. -/
theorem translatePdc_roundtrip :
    (translatePdcPayload c5Payload1).code = "int main()\x7b\x7d" ∧
    (translatePdcPayload c5Payload1).annotations =
      [{ start := 0, end_ := 3, offset := 4096 }] ∧
    (translatePdcPayload c5Payload2).code = "bad syntax\n" ∧
    (∃ pre, (translatePdcPayload c5Payload2).code = pre ++ "bad syntax\n") ∧
    (∀ json : List (String × JsonValue),
      (translatePdcPayload json).code =
        toStringQ (jlookup json "code") ++
          errorsText (toArrayQ (jlookup json "errors"))) :=
  ⟨rfl, rfl, rfl, ⟨"", rfl⟩, translate_code_eq⟩

/-- C10: every annotations entry that is a non-empty object of type
`"offset"` produces an annotation in the result, regardless of whether
`start`, `end` or `offset` parsed; `toInt` yields 0 for non-numbers and
out-of-int32-range numbers, and the `toULongLong` failure flag (0 result for
non-numeric values) is never consulted. -/
theorem offsetEntry_added_regardless (json : List (String × JsonValue))
    (line : JsonValue)
    (hline : line ∈ toArrayQ (jlookup json "annotations"))
    (hobj : (toObjectQ line).isEmpty = false)
    (htype : toStringQ (jlookup (toObjectQ line) "type") = "offset") :
    offsetEntryItem line ∈ (translatePdcPayload json).annotations ∧
    (∀ v : JsonValue, (∀ n : Int, v ≠ JsonValue.jnum n) → toIntQ v = 0) ∧
    (∀ n : Int, (n < -(2 ^ 31) ∨ 2 ^ 31 ≤ n) → toIntQ (JsonValue.jnum n) = 0) ∧
    toULongLongQ JsonValue.jnull = (0, false) ∧
    (∀ s : String, s.toNat? = none →
      toULongLongQ (JsonValue.jstr s) = (0, false)) := by
  refine ⟨?_, ?_, ?_, rfl, ?_⟩
  · rw [translate_annotations_eq]
    exact List.mem_map_of_mem _
      (List.mem_filter.mpr ⟨hline, by simp [offsetEntryKept, hobj, htype]⟩)
  · intro v hv
    cases v <;> first | rfl | exact absurd rfl (hv _)
  · intro n hn
    have h31 : (2 : Int) ^ 31 = 2147483648 := by norm_num
    simp only [toIntQ, h31] at hn ⊢
    rw [if_neg (by omega)]
  · intro s hs
    simp [toULongLongQ, hs]

/-- C10 witness: an offset-kind entry whose start is non-numeric, end is out
of int range and offset is non-numeric still lands in the result, with all
three defaulted to 0. -/
theorem offsetEntry_added_regardless_witness :
    offsetEntryItem c10Entry ∈ (translatePdcPayload c10Payload).annotations ∧
    (∀ v : JsonValue, (∀ n : Int, v ≠ JsonValue.jnum n) → toIntQ v = 0) ∧
    (∀ n : Int, (n < -(2 ^ 31) ∨ 2 ^ 31 ≤ n) → toIntQ (JsonValue.jnum n) = 0) ∧
    toULongLongQ JsonValue.jnull = (0, false) ∧
    (∀ s : String, s.toNat? = none →
      toULongLongQ (JsonValue.jstr s) = (0, false)) :=
  offsetEntry_added_regardless c10Payload c10Entry
    (List.mem_cons_self _ _) rfl rfl

/-! ## Trace lemmas for the plugin manager -/

/-- A block trace followed by a block trace is a block trace. -/
theorem blockTrace_append (F G : Nat → PmEv) {a b : List PmEv}
    (ha : BlockTrace F G a) (hb : BlockTrace F G b) :
    BlockTrace F G (a ++ b) := by
  induction ha with
  | nil => simpa
  | neutral e rest hne ht ih => exact BlockTrace.neutral e _ hne ih
  | block p rest ht ih => exact BlockTrace.block p _ ih

/-- In a block trace, whatever stands right before an occurrence of `G p` is
`F p`. -/
theorem blockTrace_getLast (F G : Nat → PmEv)
    (hFG : ∀ a b, F a ≠ G b) (hGinj : ∀ a b, G a = G b → a = b)
    {evs : List PmEv} (ht : BlockTrace F G evs) (p : Nat) :
    ∀ l₁ l₂ : List PmEv, evs = l₁ ++ G p :: l₂ →
      l₁.getLast? = some (F p) := by
  induction ht with
  | nil =>
    intro l₁ l₂ h
    cases l₁ <;> simp at h
  | neutral e rest hne ht ih =>
    intro l₁ l₂ h
    cases l₁ with
    | nil =>
      simp only [List.nil_append] at h
      injection h with h1 h2
      exact absurd h1 (hne p)
    | cons a l₁ =>
      rw [List.cons_append] at h
      injection h with h1 h2
      have hlast := ih l₁ l₂ h2
      cases l₁ with
      | nil => simp at hlast
      | cons b l₁ =>
        rw [List.getLast?_cons_cons]
        exact hlast
  | block q rest ht ih =>
    intro l₁ l₂ h
    cases l₁ with
    | nil =>
      simp only [List.nil_append] at h
      injection h with h1 h2
      exact absurd h1 (hFG q p)
    | cons a l₁ =>
      rw [List.cons_append] at h
      injection h with h1 h2
      cases l₁ with
      | nil =>
        simp only [List.nil_append] at h2
        injection h2 with h3 h4
        have hq := hGinj q p h3
        subst hq
        rw [← h1]
        rfl
      | cons b l₁ =>
        rw [List.cons_append] at h2
        injection h2 with h3 h4
        have hlast := ih l₁ l₂ h4
        cases l₁ with
        | nil => simp at hlast
        | cons c l₁ =>
          rw [List.getLast?_cons_cons, List.getLast?_cons_cons]
          exact hlast

/-- A `setup` event is never an `add` event. -/
theorem setup_ne_add (a b : Nat) : PmEv.setup a ≠ PmEv.add b := by
  intro h
  exact PmEv.noConfusion h

/-- A `terminate` event is never a `deletePlugin` event. -/
theorem terminate_ne_delete (a b : Nat) :
    PmEv.terminate a ≠ PmEv.deletePlugin b := by
  intro h
  exact PmEv.noConfusion h

/-- One native-loader step: either nothing is added (with at most a warning
event), or a non-null plugin is set up and added. -/
theorem loadNativePluginStep_shape (f : NativeModuleFile) :
    ((loadNativePluginStep f).1 = [] ∧
      ((loadNativePluginStep f).2 = [] ∨
        ∃ n m, (loadNativePluginStep f).2 = [PmEv.warnLoadError n m])) ∨
    (∃ p, p ≠ 0 ∧ loadNativePluginStep f = ([p], [PmEv.setup p, PmEv.add p])) := by
  unfold loadNativePluginStep
  by_cases h1 : f.instancePtr = 0
  · by_cases h2 : f.errorString = ""
    · simp [h1, h2]
    · exact Or.inl ⟨by simp [h1, h2], Or.inr ⟨f.fileName, f.errorString, by simp [h1, h2]⟩⟩
  · by_cases h3 : f.castPtr = 0
    · simp [h1, h3]
    · exact Or.inr ⟨f.castPtr, h3, by simp [h1, h3]⟩

/-- One python-loader step: either nothing is added and nothing happens, or
a non-null plugin is set up and added. -/
theorem loadPythonPluginStep_shape (m : PythonModule) :
    (loadPythonPluginStep m = ([], [])) ∨
    (∃ p, p ≠ 0 ∧ loadPythonPluginStep m = ([p], [PmEv.setup p, PmEv.add p])) := by
  unfold loadPythonPluginStep
  by_cases h1 : m.fileName = "__pycache__"
  · simp [h1]
  · by_cases h2 : loadPythonPlugin m = 0
    · simp [h1, h2]
    · exact Or.inr ⟨loadPythonPlugin m, h2, by simp [h1, h2]⟩

/-- Running steps distributes over list append. -/
theorem runSteps_append {α : Type} (step : α → List Nat × List PmEv)
    (xs ys : List α) :
    runSteps step (xs ++ ys) =
      ((runSteps step xs).1 ++ (runSteps step ys).1,
       (runSteps step xs).2 ++ (runSteps step ys).2) := by
  simp [runSteps]

/-- Running steps unfolds on a cons. -/
theorem runSteps_cons {α : Type} (step : α → List Nat × List PmEv)
    (x : α) (xs : List α) :
    runSteps step (x :: xs) =
      ((step x).1 ++ (runSteps step xs).1,
       (step x).2 ++ (runSteps step xs).2) := by
  simp [runSteps]

/-- Unfolding `loadNativePlugins` on a cons. -/
theorem loadNativePlugins_cons (f : NativeModuleFile)
    (rest : List NativeModuleFile) :
    loadNativePlugins (f :: rest) =
      ((loadNativePluginStep f).1 ++ (loadNativePlugins rest).1,
       (loadNativePluginStep f).2 ++ (loadNativePlugins rest).2) := by
  simp [loadNativePlugins, runSteps]

/-- Unfolding `loadNativePlugins` on an append. -/
theorem loadNativePlugins_append (xs ys : List NativeModuleFile) :
    loadNativePlugins (xs ++ ys) =
      ((loadNativePlugins xs).1 ++ (loadNativePlugins ys).1,
       (loadNativePlugins xs).2 ++ (loadNativePlugins ys).2) := by
  simp [loadNativePlugins, runSteps]

/-- Unfolding `loadPythonPlugins` on a cons. -/
theorem loadPythonPlugins_cons (m : PythonModule) (rest : List PythonModule) :
    loadPythonPlugins (m :: rest) =
      ((loadPythonPluginStep m).1 ++ (loadPythonPlugins rest).1,
       (loadPythonPluginStep m).2 ++ (loadPythonPlugins rest).2) := by
  simp [loadPythonPlugins, runSteps]

/-- Unfolding `loadPythonPlugins` on an append. -/
theorem loadPythonPlugins_append (xs ys : List PythonModule) :
    loadPythonPlugins (xs ++ ys) =
      ((loadPythonPlugins xs).1 ++ (loadPythonPlugins ys).1,
       (loadPythonPlugins xs).2 ++ (loadPythonPlugins ys).2) := by
  simp [loadPythonPlugins, runSteps]

/-- Unfolding `destroyPlugins` on a cons. -/
theorem destroyPlugins_cons (p : Nat) (rest : List Nat) :
    (destroyPlugins (p :: rest)).2 =
      PmEv.terminate p :: PmEv.deletePlugin p :: (destroyPlugins rest).2 := by
  simp [destroyPlugins, pluginTerminator]

/-- The native-loader trace is a setup/add block trace. -/
theorem loadNative_blockTrace (files : List NativeModuleFile) :
    BlockTrace PmEv.setup PmEv.add (loadNativePlugins files).2 := by
  induction files with
  | nil => exact BlockTrace.nil
  | cons f rest ih =>
    rw [loadNativePlugins_cons]
    rcases loadNativePluginStep_shape f with ⟨h1, hev⟩ | ⟨p, hp, hstep⟩
    · rcases hev with he | ⟨n, m, he⟩
      · rw [he]
        simpa using ih
      · rw [he]
        simp only [List.cons_append, List.nil_append]
        exact BlockTrace.neutral _ _
          (fun q hc => PmEv.noConfusion hc) ih
    · rw [hstep]
      simp only [List.cons_append, List.nil_append]
      exact BlockTrace.block p _ ih

/-- The python-loader trace is a setup/add block trace. -/
theorem loadPython_blockTrace (modules : List PythonModule) :
    BlockTrace PmEv.setup PmEv.add (loadPythonPlugins modules).2 := by
  induction modules with
  | nil => exact BlockTrace.nil
  | cons m rest ih =>
    rw [loadPythonPlugins_cons]
    rcases loadPythonPluginStep_shape m with he | ⟨p, hp, hstep⟩
    · rw [he]
      simpa using ih
    · rw [hstep]
      simp only [List.cons_append, List.nil_append]
      exact BlockTrace.block p _ ih

/-- The teardown trace is a terminate/delete block trace. -/
theorem destroy_blockTrace (ps : List Nat) :
    BlockTrace PmEv.terminate PmEv.deletePlugin (destroyPlugins ps).2 := by
  induction ps with
  | nil => exact BlockTrace.nil
  | cons p rest ih =>
    rw [destroyPlugins_cons]
    exact BlockTrace.block p _ ih

/-- The plugins receiving `setupPlugin` on the native path are exactly the
plugins added, in order. -/
theorem loadNative_setups (files : List NativeModuleFile) :
    ((loadNativePlugins files).2.filterMap eventSetup) =
      (loadNativePlugins files).1 := by
  induction files with
  | nil => rfl
  | cons f rest ih =>
    rw [loadNativePlugins_cons]
    simp only [List.filterMap_append, ih]
    congr 1
    rcases loadNativePluginStep_shape f with ⟨h1, hev⟩ | ⟨p, hp, hstep⟩
    · rcases hev with he | ⟨n, m, he⟩ <;> rw [h1, he] <;> rfl
    · rw [hstep]
      rfl

/-- The plugins receiving `setupPlugin` on the python path are exactly the
plugins added, in order. -/
theorem loadPython_setups (modules : List PythonModule) :
    ((loadPythonPlugins modules).2.filterMap eventSetup) =
      (loadPythonPlugins modules).1 := by
  induction modules with
  | nil => rfl
  | cons m rest ih =>
    rw [loadPythonPlugins_cons]
    simp only [List.filterMap_append, ih]
    congr 1
    rcases loadPythonPluginStep_shape m with he | ⟨p, hp, hstep⟩
    · rw [he]
      rfl
    · rw [hstep]
      rfl

/-- Plugins added by the native loader are non-null. -/
theorem loadNative_mem_ne_zero (files : List NativeModuleFile) (q : Nat)
    (hq : q ∈ (loadNativePlugins files).1) : q ≠ 0 := by
  induction files with
  | nil => simp [loadNativePlugins, runSteps] at hq
  | cons f rest ih =>
    rw [loadNativePlugins_cons] at hq
    rcases List.mem_append.mp hq with h | h
    · rcases loadNativePluginStep_shape f with ⟨h1, _⟩ | ⟨p, hp, hstep⟩
      · rw [h1] at h
        simp at h
      · rw [hstep] at h
        simp at h
        exact h ▸ hp
    · exact ih h

/-- Plugins added by the python loader are non-null. -/
theorem loadPython_mem_ne_zero (modules : List PythonModule) (q : Nat)
    (hq : q ∈ (loadPythonPlugins modules).1) : q ≠ 0 := by
  induction modules with
  | nil => simp [loadPythonPlugins, runSteps] at hq
  | cons m rest ih =>
    rw [loadPythonPlugins_cons] at hq
    rcases List.mem_append.mp hq with h | h
    · rcases loadPythonPluginStep_shape m with he | ⟨p, hp, hstep⟩
      · rw [he] at h
        simp at h
      · rw [hstep] at h
        simp at h
        exact h ▸ hp
    · exact ih h

/-- Teardown terminates exactly the active plugins, in order. -/
theorem destroy_terminates (ps : List Nat) :
    ((destroyPlugins ps).2.filterMap eventTerminate) = ps := by
  induction ps with
  | nil => rfl
  | cons p rest ih =>
    rw [destroyPlugins_cons]
    simp [List.filterMap_cons, eventTerminate, ih]

/-- Teardown releases exactly the active plugins, in order. -/
theorem destroy_deletes (ps : List Nat) :
    ((destroyPlugins ps).2.filterMap eventDelete) = ps := by
  induction ps with
  | nil => rfl
  | cons p rest ih =>
    rw [destroyPlugins_cons]
    simp [List.filterMap_cons, eventDelete, ih]

/-- A `terminate` event during teardown names an active plugin. -/
theorem destroy_terminate_mem (ps : List Nat) (p : Nat)
    (h : PmEv.terminate p ∈ (destroyPlugins ps).2) : p ∈ ps := by
  induction ps with
  | nil => simp [destroyPlugins] at h
  | cons q rest ih =>
    rw [destroyPlugins_cons] at h
    simp only [List.mem_cons] at h
    rcases h with h1 | h1 | h1
    · injection h1 with hpq
      rw [hpq]
      exact List.mem_cons_self q rest
    · exact absurd h1 (fun hc => PmEv.noConfusion hc)
    · exact List.mem_cons_of_mem _ (ih h1)

/-- A native module that failed to load or failed the IaitoPlugin cast
contributes no plugin and no setup/terminate event. -/
theorem failed_native_step (f : NativeModuleFile)
    (hf : f.instancePtr = 0 ∨ f.castPtr = 0) :
    (loadNativePluginStep f).1 = [] ∧
    (∀ e ∈ (loadNativePluginStep f).2, ∀ p : Nat,
      e ≠ PmEv.setup p ∧ e ≠ PmEv.terminate p) := by
  have hwarn : ∀ (n msg : String) (p : Nat),
      PmEv.warnLoadError n msg ≠ PmEv.setup p ∧
        PmEv.warnLoadError n msg ≠ PmEv.terminate p :=
    fun n msg p => ⟨fun hc => PmEv.noConfusion hc, fun hc => PmEv.noConfusion hc⟩
  unfold loadNativePluginStep
  by_cases h1 : f.instancePtr = 0
  · rw [if_pos h1]
    by_cases h2 : f.errorString = ""
    · rw [if_neg (fun hc => hc h2)]
      exact ⟨rfl, by intro e he; simp at he⟩
    · rw [if_pos h2]
      refine ⟨rfl, ?_⟩
      intro e he p
      simp only [List.mem_singleton] at he
      rw [he]
      exact hwarn _ _ p
  · rcases hf with h | h
    · exact absurd h h1
    · rw [if_neg h1, if_pos h]
      exact ⟨rfl, by intro e he; simp at he⟩

/-- A python module whose load produced the null pointer contributes
nothing at all. -/
theorem null_python_step (m : PythonModule)
    (hm : loadPythonPlugin m = 0) :
    loadPythonPluginStep m = ([], []) := by
  unfold loadPythonPluginStep
  by_cases h1 : m.fileName = "__pycache__"
  · rw [if_pos h1]
  · rw [if_neg h1]
    simp [hm]

/-! ## Claim theorems: plugin manager -/

/-- C6: a module failing the plugin contract (native instance null or
failing the IaitoPlugin cast; python load returning null at any stage)
never appears in the active plugin set, never receives `setupPlugin`, and
never receives `terminate`; the surrounding scan is unaffected and
teardown only ever terminates plugins that made it into the active set. -/
theorem failed_module_never_active (pre post : List NativeModuleFile)
    (f : NativeModuleFile) (qre qost : List PythonModule) (m : PythonModule)
    (hf : f.instancePtr = 0 ∨ f.castPtr = 0)
    (hm : loadPythonPlugin m = 0) :
    (loadNativePluginStep f).1 = [] ∧
    (∀ e ∈ (loadNativePluginStep f).2, ∀ p : Nat,
      e ≠ PmEv.setup p ∧ e ≠ PmEv.terminate p) ∧
    (loadNativePlugins (pre ++ f :: post)).1 =
      (loadNativePlugins pre).1 ++ (loadNativePlugins post).1 ∧
    (loadPythonPluginStep m).1 = [] ∧
    (loadPythonPluginStep m).2 = [] ∧
    (loadPythonPlugins (qre ++ m :: qost)).1 =
      (loadPythonPlugins qre).1 ++ (loadPythonPlugins qost).1 ∧
    (∀ p : Nat,
      PmEv.terminate p ∈
          (destroyPlugins ((loadNativePlugins (pre ++ f :: post)).1 ++
            (loadPythonPlugins (qre ++ m :: qost)).1)).2 →
        p ∈ ((loadNativePlugins pre).1 ++ (loadNativePlugins post).1) ++
          ((loadPythonPlugins qre).1 ++ (loadPythonPlugins qost).1)) := by
  have hn := failed_native_step f hf
  have hp := null_python_step m hm
  have e1 : (loadNativePlugins (pre ++ f :: post)).1 =
      (loadNativePlugins pre).1 ++ (loadNativePlugins post).1 := by
    simp [loadNativePlugins_append, loadNativePlugins_cons, hn.1]
  have e2 : (loadPythonPlugins (qre ++ m :: qost)).1 =
      (loadPythonPlugins qre).1 ++ (loadPythonPlugins qost).1 := by
    simp [loadPythonPlugins_append, loadPythonPlugins_cons, hp]
  refine ⟨hn.1, hn.2, e1, ?_, ?_, e2, ?_⟩
  · rw [hp]
  · rw [hp]
  · intro p hmem
    have h2 := destroy_terminate_mem _ p hmem
    rw [e1, e2] at h2
    exact h2

/-- C6 witness: a native module whose load failed outright and a python
module whose conversion succeeded but wrote null, in otherwise empty
directories. -/
theorem failed_module_never_active_witness :
    (loadNativePluginStep ⟨"bad.so", "not a plugin", 0, 0⟩).1 = [] ∧
    (∀ e ∈ (loadNativePluginStep ⟨"bad.so", "not a plugin", 0, 0⟩).2,
      ∀ p : Nat, e ≠ PmEv.setup p ∧ e ≠ PmEv.terminate p) ∧
    (loadNativePlugins ([] ++ ⟨"bad.so", "not a plugin", 0, 0⟩ :: [])).1 =
      (loadNativePlugins []).1 ++ (loadNativePlugins []).1 ∧
    (loadPythonPluginStep ⟨"mod.py", true, true, true, true, 0⟩).1 = [] ∧
    (loadPythonPluginStep ⟨"mod.py", true, true, true, true, 0⟩).2 = [] ∧
    (loadPythonPlugins ([] ++ ⟨"mod.py", true, true, true, true, 0⟩ :: [])).1 =
      (loadPythonPlugins []).1 ++ (loadPythonPlugins []).1 ∧
    (∀ p : Nat,
      PmEv.terminate p ∈
          (destroyPlugins
            ((loadNativePlugins ([] ++ ⟨"bad.so", "not a plugin", 0, 0⟩ :: [])).1 ++
             (loadPythonPlugins ([] ++ ⟨"mod.py", true, true, true, true, 0⟩ :: [])).1)).2 →
        p ∈ ((loadNativePlugins []).1 ++ (loadNativePlugins []).1) ++
          ((loadPythonPlugins []).1 ++ (loadPythonPlugins []).1)) :=
  failed_module_never_active [] [] ⟨"bad.so", "not a plugin", 0, 0⟩ [] []
    ⟨"mod.py", true, true, true, true, 0⟩ (Or.inl rfl) rfl

/-- C7 counterexample: with no standard locations, an override list `"a:a"`
and user root `"u"`, the scanned sequence is `["u", "a", "a"]` — the root
`"a"` is scanned twice, so the sequence of search roots is not
deduplicated. -/
theorem pluginRoots_not_deduplicated :
    ¬ (loadPluginsRoots "u" (getPluginDirectories [] "a:a" ':')).Nodup := by
  decide

/-- C7 (amended): the scan order is the user-writable root first, then the
fixed install locations (each with `/plugins` appended), then the override
entries split on the platform list separator, preserving their relative
order; only the user root is deduplicated (it is skipped when it reappears
later and is scanned exactly once) — duplicates among the other roots are
scanned again. -/
theorem pluginRoots_order_and_user_dedup (userPluginDir : String)
    (standardLocations : List String) (extraPluginDirs : String)
    (listSeparator : Char) (h : userPluginDir ≠ "") :
    loadPluginsRoots userPluginDir
        (getPluginDirectories standardLocations extraPluginDirs listSeparator) =
      userPluginDir ::
        (getPluginDirectories standardLocations extraPluginDirs
          listSeparator).filter (fun dir => dir ≠ userPluginDir) ∧
    (loadPluginsRoots userPluginDir
        (getPluginDirectories standardLocations extraPluginDirs
          listSeparator)).count userPluginDir = 1 ∧
    ((getPluginDirectories standardLocations extraPluginDirs
        listSeparator).filter (fun dir => dir ≠ userPluginDir)).Sublist
      (getPluginDirectories standardLocations extraPluginDirs listSeparator) ∧
    getPluginDirectories standardLocations extraPluginDirs listSeparator =
      standardLocations.map (fun location => location ++ "/plugins") ++
        splitSkipEmpty listSeparator extraPluginDirs := by
  have e1 : loadPluginsRoots userPluginDir
      (getPluginDirectories standardLocations extraPluginDirs listSeparator) =
      userPluginDir ::
        (getPluginDirectories standardLocations extraPluginDirs
          listSeparator).filter (fun dir => dir ≠ userPluginDir) := by
    simp [loadPluginsRoots, h]
  refine ⟨e1, ?_, List.filter_sublist _, rfl⟩
  rw [e1, List.count_cons_self]
  have h0 : ((getPluginDirectories standardLocations extraPluginDirs
      listSeparator).filter (fun dir => dir ≠ userPluginDir)).count
        userPluginDir = 0 := by
    rw [List.count_eq_zero]
    intro hmem
    have h2 := (List.mem_filter.mp hmem).2
    simp at h2
  rw [h0]

/-- C7 witness: a concrete user root, one install location and one override
entry. -/
theorem pluginRoots_order_and_user_dedup_witness :
    loadPluginsRoots "u" (getPluginDirectories ["a"] "b" ':') =
      "u" :: (getPluginDirectories ["a"] "b" ':').filter
        (fun dir => dir ≠ "u") ∧
    (loadPluginsRoots "u" (getPluginDirectories ["a"] "b" ':')).count "u" = 1 ∧
    ((getPluginDirectories ["a"] "b" ':').filter
        (fun dir => dir ≠ "u")).Sublist (getPluginDirectories ["a"] "b" ':') ∧
    getPluginDirectories ["a"] "b" ':' =
      ["a"].map (fun location => location ++ "/plugins") ++
        splitSkipEmpty ':' "b" :=
  pluginRoots_order_and_user_dedup "u" ["a"] "b" ':' (by decide)

/-- C8: `destroyPlugins` leaves the active set empty, is a no-op on an
empty set, terminates and releases exactly the active plugins (in order),
and never releases a plugin without having terminated it immediately
before. -/
theorem destroyPlugins_contract (plugins : List Nat) (p : Nat)
    (l₁ l₂ : List PmEv) :
    (destroyPlugins plugins).1 = [] ∧
    (destroyPlugins []).2 = [] ∧
    ((destroyPlugins plugins).2.filterMap eventTerminate) = plugins ∧
    ((destroyPlugins plugins).2.filterMap eventDelete) = plugins ∧
    ((destroyPlugins plugins).2 = l₁ ++ PmEv.deletePlugin p :: l₂ →
      l₁.getLast? = some (PmEv.terminate p)) :=
  ⟨rfl, rfl, destroy_terminates plugins, destroy_deletes plugins,
   fun h =>
     blockTrace_getLast PmEv.terminate PmEv.deletePlugin terminate_ne_delete
       (fun a b hab => by injection hab)
       (destroy_blockTrace plugins) p l₁ l₂ h⟩

/-- C8 witness: tearing down two active plugins; the release of plugin 7 is
immediately preceded by its `terminate`. -/
theorem destroyPlugins_contract_witness :
    [PmEv.terminate 5, PmEv.deletePlugin 5, PmEv.terminate 7].getLast? =
      some (PmEv.terminate 7) :=
  (destroyPlugins_contract [5, 7] 7
    [PmEv.terminate 5, PmEv.deletePlugin 5, PmEv.terminate 7] []).2.2.2.2 rfl

/-- C9: every active plugin (native or python path) is a non-null pointer;
the sequence of plugins receiving `setupPlugin` is exactly the active set
(so each was set up exactly once), every insertion is immediately preceded
by the `setupPlugin` call on that same plugin; and on the python path a
conversion that succeeds yet writes a null pointer is rejected before
`setupPlugin` (the load returns null and the step contributes nothing). -/
theorem active_plugins_nonnull_setup_once (files : List NativeModuleFile)
    (modules : List PythonModule) (p : Nat) (l₁ l₂ : List PmEv)
    (m : PythonModule) (hconv : m.convertible = true)
    (hnull : m.convertedPtr = 0) :
    (∀ q ∈ (loadNativePlugins files).1 ++ (loadPythonPlugins modules).1,
      q ≠ 0) ∧
    (((loadNativePlugins files).2 ++ (loadPythonPlugins modules).2).filterMap
        eventSetup =
      (loadNativePlugins files).1 ++ (loadPythonPlugins modules).1) ∧
    ((loadNativePlugins files).2 ++ (loadPythonPlugins modules).2 =
        l₁ ++ PmEv.add p :: l₂ → l₁.getLast? = some (PmEv.setup p)) ∧
    loadPythonPlugin m = 0 ∧
    loadPythonPluginStep m = ([], []) := by
  have hm0 : loadPythonPlugin m = 0 := by
    unfold loadPythonPlugin
    cases him : m.importOk <;> cases hcf : m.hasCreateFunc <;>
      cases hco : m.callOk <;> simp [him, hcf, hco, hconv, hnull]
  refine ⟨?_, ?_, ?_, hm0, null_python_step m hm0⟩
  · intro q hq
    rcases List.mem_append.mp hq with hmem | hmem
    · exact loadNative_mem_ne_zero files q hmem
    · exact loadPython_mem_ne_zero modules q hmem
  · rw [List.filterMap_append, loadNative_setups, loadPython_setups]
  · intro h
    exact blockTrace_getLast PmEv.setup PmEv.add setup_ne_add
      (fun a b hab => by injection hab)
      (blockTrace_append _ _ (loadNative_blockTrace files)
        (loadPython_blockTrace modules)) p l₁ l₂ h

/-- C9 witness: a python module whose Shiboken conversion succeeds but
writes the null pointer is rejected with no setup and no insertion. -/
theorem active_plugins_nonnull_setup_once_witness :
    loadPythonPlugin ⟨"mod2.py", true, true, true, true, 0⟩ = 0 ∧
    loadPythonPluginStep ⟨"mod2.py", true, true, true, true, 0⟩ = ([], []) :=
  ⟨(active_plugins_nonnull_setup_once [] [] 0 [] []
      ⟨"mod2.py", true, true, true, true, 0⟩ rfl rfl).2.2.2.1,
   (active_plugins_nonnull_setup_once [] [] 0 [] []
      ⟨"mod2.py", true, true, true, true, 0⟩ rfl rfl).2.2.2.2⟩
